import Mathlib

/-!
Verification of the Smart-Account library (operation codec, Merkle session
commitment store, relay/sponsor parsing, account orchestrator guards).

Python `bytes` values are modelled as `List Nat` with every element `< 256`;
Python `str` values as `List Char`; Python `int` as `Int` (arbitrary
precision, as in Python).  `keccak` (from `eth_utils`) is modelled by a
complete executable Keccak-256 implementation, validated below against
standard test vectors.
-/

namespace Keccak

/-- 64-bit lane mask. -/
def mask64 : Nat := 2 ^ 64 - 1

/-- Bitwise complement within a 64-bit lane. -/
def not64 (x : Nat) : Nat := x ^^^ mask64

/-- Left rotation of a 64-bit lane by `n` bits (`0 ≤ n < 64`). -/
def rotl64 (x n : Nat) : Nat :=
  (((x <<< n) ||| (x >>> (64 - n)))) &&& mask64

/-- The 24 Keccak-f[1600] round constants (decimal). -/
def roundConstants : List Nat :=
  [1, 32898, 9223372036854808714,
   9223372039002292224, 32907, 2147483649,
   9223372039002292353, 9223372036854808585, 138,
   136, 2147516425, 2147483658,
   2147516555, 9223372036854775947, 9223372036854808713,
   9223372036854808579, 9223372036854808578, 9223372036854775936,
   32778, 9223372039002259466, 9223372039002292353,
   9223372036854808704, 2147483649, 9223372039002292232]

/-- Rho rotation offsets, row by row (row `y` holds lanes `(0..4, y)`);
the flat index is `x + 5*y`. -/
def rhoRows : List (List Nat) :=
  [[0, 1, 62, 28, 27],
   [36, 44, 6, 55, 20],
   [3, 10, 43, 25, 39],
   [41, 45, 15, 21, 8],
   [18, 2, 61, 56, 14]]

/-- Rho rotation offsets, indexed by lane `i = x + 5*y`. -/
def rhoOffsets : List Nat :=
  rhoRows.foldr (· ++ ·) []

/-- Theta step: column parities folded back into every lane. -/
def theta (A : List Nat) : List Nat :=
  let c := fun x => A.getD x 0 ^^^ A.getD (x + 5) 0 ^^^ A.getD (x + 10) 0 ^^^
                    A.getD (x + 15) 0 ^^^ A.getD (x + 20) 0
  let d := fun x => c ((x + 4) % 5) ^^^ rotl64 (c ((x + 1) % 5)) 1
  let d0 := d 0
  let d1 := d 1
  let d2 := d 2
  let d3 := d 3
  let d4 := d 4
  let ds := [d0, d1, d2, d3, d4]
  (List.range 25).map (fun i => A.getD i 0 ^^^ ds.getD (i % 5) 0)

/-- Combined rho (rotation) and pi (lane permutation) steps:
lane `(x, y)` rotated by its offset moves to position `(y, (2x+3y) mod 5)`. -/
def rhoPi (A : List Nat) : List Nat :=
  (List.range 25).foldl
    (fun B i =>
      let x := i % 5
      let y := i / 5
      B.set (y + 5 * ((2 * x + 3 * y) % 5)) (rotl64 (A.getD i 0) (rhoOffsets.getD i 0)))
    (List.replicate 25 0)

/-- Chi step: nonlinear row mixing. -/
def chi (B : List Nat) : List Nat :=
  (List.range 25).map (fun i =>
    let x := i % 5
    let y := i / 5
    B.getD i 0 ^^^ (not64 (B.getD ((x + 1) % 5 + 5 * y) 0) &&& B.getD ((x + 2) % 5 + 5 * y) 0))

/-- Iota step: xor the round constant into lane 0. -/
def iota (rc : Nat) (A : List Nat) : List Nat :=
  A.set 0 (A.getD 0 0 ^^^ rc)

/-- One Keccak-f round. -/
def keccakRound (A : List Nat) (rc : Nat) : List Nat :=
  iota rc (chi (rhoPi (theta A)))

/-- The Keccak-f[1600] permutation (24 rounds). -/
def keccakF (A : List Nat) : List Nat :=
  roundConstants.foldl keccakRound A

/-- Interpret 8 bytes (little-endian) at offset `8*j` of `block` as a lane. -/
def laneOfBytes (block : List Nat) (j : Nat) : Nat :=
  (List.range 8).foldl (fun acc b => acc ||| (block.getD (8 * j + b) 0 <<< (8 * b))) 0

/-- Absorb one 136-byte (rate-sized) block into the state. -/
def absorbBlock (A : List Nat) (block : List Nat) : List Nat :=
  keccakF ((List.range 25).map (fun i =>
    if i < 17 then A.getD i 0 ^^^ laneOfBytes block i else A.getD i 0))

/-- Absorb `n` rate-sized blocks of `bytes` into the state, 136 bytes at a
time.  The caller passes `n = bytes.length / 136`, the exact block count of
the padded message (structural recursion on the block count keeps the
function kernel-computable). -/
def absorbBlocks (A : List Nat) (bytes : List Nat) : Nat → List Nat
  | 0 => A
  | n + 1 => absorbBlocks (absorbBlock A (bytes.take 136)) (bytes.drop 136) n

/-- Keccak (original, 0x01 domain) pad10*1 padding to a multiple of 136 bytes. -/
def pad (msg : List Nat) : List Nat :=
  let padLen := 136 - msg.length % 136
  if padLen == 1 then msg ++ [0x81]
  else msg ++ [0x01] ++ List.replicate (padLen - 2) 0 ++ [0x80]

/-- Extract the first 32 output bytes of the state (little-endian lanes). -/
def squeeze32 (A : List Nat) : List Nat :=
  (List.range 32).map (fun k => (A.getD (k / 8) 0 >>> (8 * (k % 8))) &&& 255)

end Keccak

/-- Keccak-256 digest of a byte string, as used by `eth_utils.keccak`. -/
def keccakBytes (msg : List Nat) : List Nat :=
  let padded := Keccak.pad msg
  Keccak.squeeze32 (Keccak.absorbBlocks (List.replicate 25 0) padded (padded.length / 136))

set_option maxRecDepth 10000 in
/-- Keccak-256 of the empty input — the well-known constant
`c5d2460186f7233c927e7db2dcc703c0e500b653ca82273b7bfad8045d85a470`. -/
theorem keccakBytes_empty :
    keccakBytes [] =
      [0xc5, 0xd2, 0x46, 0x01, 0x86, 0xf7, 0x23, 0x3c,
       0x92, 0x7e, 0x7d, 0xb2, 0xdc, 0xc7, 0x03, 0xc0,
       0xe5, 0x00, 0xb6, 0x53, 0xca, 0x82, 0x27, 0x3b,
       0x7b, 0xfa, 0xd8, 0x04, 0x5d, 0x85, 0xa4, 0x70] := by decide

set_option maxRecDepth 10000 in
/-- Keccak-256 of `"abc"` — the standard test vector
`4e03657aea45a94fc7d47ba826c8d667c0d1e6e33a64a036ec44f58fa12d6c45`. -/
theorem keccakBytes_abc :
    keccakBytes [0x61, 0x62, 0x63] =
      [0x4e, 0x03, 0x65, 0x7a, 0xea, 0x45, 0xa9, 0x4f,
       0xc7, 0xd4, 0x7b, 0xa8, 0x26, 0xc8, 0xd6, 0x67,
       0xc0, 0xd1, 0xe6, 0xe3, 0x3a, 0x64, 0xa0, 0x36,
       0xec, 0x44, 0xf5, 0x8f, 0xa1, 0x2d, 0x6c, 0x45] := by decide

/-- A Keccak-256 digest is always 32 bytes. -/
theorem keccakBytes_length (msg : List Nat) : (keccakBytes msg).length = 32 := by
  simp [keccakBytes, Keccak.squeeze32]

/-!
## Session Commitment Store — `src/utils/persistent_merkle_tree.py`

The pickle-file persistence layer is not modelled: a `PersistentMerkleTree`
is its in-memory state `(tree, leaves)`; `add_leaf` both mutates and saves,
and the saved record is exactly this state.
-/

/-- In-memory state of `PersistentMerkleTree`: the leaf-hash sequence and the
derived top level of the Merkle tree (`self.leaves` / `self.tree`). -/
structure PersistentMerkleTree where
  leaves : List (List Nat)
  tree : List (List Nat)
deriving DecidableEq, Repr

/-- One reduction of a level: hash adjacent pairs
(`[keccak(tree[i] + tree[i+1]) for i in range(0, len(tree), 2)]`). -/
def hashLevel : List (List Nat) → List (List Nat)
  | a :: b :: rest => keccakBytes (a ++ b) :: hashLevel rest
  | _ => []

/-- `if len(tree) % 2 == 1: tree.append(tree[-1])` — duplicate the last
element when the level has odd length. -/
def padOdd (l : List (List Nat)) : List (List Nat) :=
  if l.length % 2 == 1 then l ++ [l.getLastD []] else l

/-- The `while len(tree) > 1` reduction loop of `_build_merkle_tree`,
expressed with a fuel counter so it stays kernel-computable.  `fuel = n`
iterations more than suffice for `n` leaves, since each pass at least
halves the level length. -/
def buildLoop : Nat → List (List Nat) → List (List Nat)
  | 0, t => t
  | fuel + 1, t => if t.length ≤ 1 then t else buildLoop fuel (hashLevel (padOdd t))

/-- `PersistentMerkleTree._build_merkle_tree`: `[]` for no leaves, otherwise
the fully reduced top level (a single hash). -/
def buildMerkleTree (leaves : List (List Nat)) : List (List Nat) :=
  if leaves.isEmpty then [] else buildLoop leaves.length leaves

/-- A fresh tree with no leaves (constructor with no prior file and
`leaves=None`). -/
def emptyTree : PersistentMerkleTree :=
  { leaves := [], tree := buildMerkleTree [] }

/-- `PersistentMerkleTree.add_leaf`: append `keccak(leaf)` to the leaf
sequence and rebuild the tree. -/
def addLeaf (t : PersistentMerkleTree) (leaf : List Nat) : PersistentMerkleTree :=
  let leaves := t.leaves ++ [keccakBytes leaf]
  { leaves := leaves, tree := buildMerkleTree leaves }

/-- `PersistentMerkleTree.root`: `self.tree[0] if self.tree else b''`. -/
def treeRoot (t : PersistentMerkleTree) : List Nat :=
  t.tree.headD []

/-- One level of the `get_proof` loop: walk the (already padded) level in
pairs at positions `i, i+1`; when a pair straddles `index`, record the
sibling; always emit the pair hash for the next level.  Returns
`(new proof entries, next level)`. -/
def proofLevel (i : Nat) (index : Nat) : List (List Nat) → List (List Nat) × List (List Nat)
  | a :: b :: rest =>
    let (p, ns) := proofLevel (i + 2) index rest
    ((if i = index then [b] else if i + 1 = index then [a] else []) ++ p,
     keccakBytes (a ++ b) :: ns)
  | _ => ([], [])

/-- The `while len(siblings) > 1` loop of `get_proof` (fuel as in
`buildLoop`): pad the level, collect the sibling of `index`, halve the
index, continue on the hashed level. -/
def getProofLoop : Nat → Nat → List (List Nat) → List (List Nat) → List (List Nat)
  | 0, _, _, proof => proof
  | fuel + 1, index, siblings, proof =>
    if siblings.length ≤ 1 then proof
    else
      let padded := padOdd siblings
      let (entries, next) := proofLevel 0 index padded
      getProofLoop fuel (index / 2) next (proof ++ entries)

/-- `PersistentMerkleTree.get_proof`: hash the queried leaf, locate it by
`self.leaves.index(leaf_hash)` (first occurrence; `ValueError` if absent),
then walk the levels collecting siblings positionally. -/
def getProof (t : PersistentMerkleTree) (leaf : List Nat) :
    Except (List Char) (List (List Nat)) :=
  let leafHash := keccakBytes leaf
  match t.leaves.findIdx? (· == leafHash) with
  | none => .error ("not in list".toList)
  | some index => .ok (getProofLoop t.leaves.length index t.leaves [])

/-- Python `bytes` comparison `<`: lexicographic on the byte sequences. -/
def bytesLt : List Nat → List Nat → Bool
  | _, [] => false
  | [], _ :: _ => true
  | a :: as, b :: bs => if a < b then true else if b < a then false else bytesLt as bs

/-- `PersistentMerkleTree.verify_proof`: starting from `keccak(leaf)`,
combine with each sibling ordering the pair by byte-wise comparison
(smaller first), and compare with the stored root. -/
def verifyProof (t : PersistentMerkleTree) (leaf : List Nat) (proof : List (List Nat)) :
    Bool :=
  (proof.foldl
    (fun acc sib =>
      if bytesLt acc sib then keccakBytes (acc ++ sib) else keccakBytes (sib ++ acc))
    (keccakBytes leaf)) == treeRoot t

/-- Trees reachable by appending raw leaves one by one to a fresh store. -/
def treeOfRaws (raws : List (List Nat)) : PersistentMerkleTree :=
  raws.foldl addLeaf emptyTree

/-- Decidable equality for `Except`, needed to evaluate fallible functions
at concrete inputs. -/
instance {ε α : Type} [DecidableEq ε] [DecidableEq α] : DecidableEq (Except ε α) :=
  fun x y =>
    match x, y with
    | .ok a, .ok b =>
      if h : a = b then isTrue (by rw [h]) else isFalse (fun he => h (Except.ok.inj he))
    | .error a, .error b =>
      if h : a = b then isTrue (by rw [h]) else isFalse (fun he => h (Except.error.inj he))
    | .ok _, .error _ => isFalse (fun he => Except.noConfusion he)
    | .error _, .ok _ => isFalse (fun he => Except.noConfusion he)

/-- Every leaf hash of a tree grown from `t` by `addLeaf` is a leaf hash of
`t` or the keccak of one of the appended raw leaves. -/
theorem mem_foldl_addLeaf (raws : List (List Nat)) (t : PersistentMerkleTree)
    (x : List Nat) (hx : x ∈ (raws.foldl addLeaf t).leaves) :
    x ∈ t.leaves ∨ ∃ raw ∈ raws, x = keccakBytes raw := by
  induction raws generalizing t with
  | nil => exact Or.inl hx
  | cons r rs ih =>
    rcases ih (addLeaf t r) hx with h | ⟨raw, hraw, hxeq⟩
    · simp only [addLeaf, List.mem_append, List.mem_singleton] at h
      rcases h with h | h
      · exact Or.inl h
      · exact Or.inr ⟨r, by simp, h⟩
    · exact Or.inr ⟨raw, by simp [hraw], hxeq⟩

set_option maxRecDepth 40000 in
/-- C1: the claim says every proof produced by `get_proof` verifies under
`verify_proof` for leaf sets of sizes 1, 2, 3 and 8.  The code violates
this: `_build_merkle_tree` and `get_proof` combine each pair positionally
(`keccak(siblings[i] + siblings[i+1])`), while `verify_proof` orders the
pair lexicographically before hashing.  For the two raw leaves `b"\x00"`,
`b"\x01"` appended in that order, `keccak(b"\x00") > keccak(b"\x01")`
byte-wise, so the sorted order disagrees with the positional order and both
generated single-sibling proofs are rejected by `verify_proof`. -/
theorem claim_C1_bug_eval :
    getProof (treeOfRaws [[0], [1]]) [0] = .ok [keccakBytes [1]] ∧
    getProof (treeOfRaws [[0], [1]]) [1] = .ok [keccakBytes [0]] ∧
    verifyProof (treeOfRaws [[0], [1]]) [0] [keccakBytes [1]] = false ∧
    verifyProof (treeOfRaws [[0], [1]]) [1] [keccakBytes [0]] = false := by
  refine ⟨by decide, by decide, by decide, by decide⟩

set_option maxRecDepth 40000 in
/-- C2 counterexample: after appending one grant leaf (raw bytes `b"\x00"`)
to an empty store, the root is the stored leaf hash `keccak(b"\x00")`
itself, not `keccak(leaf ‖ leaf)` (neither for the stored leaf hash nor for
the raw leaf): with a single leaf, `_build_merkle_tree`'s `while
len(tree) > 1` loop never runs, so no self-duplication happens. -/
theorem claim_C2_counterexample :
    treeRoot (addLeaf emptyTree [0]) = keccakBytes [0] ∧
    treeRoot (addLeaf emptyTree [0]) ≠ keccakBytes (keccakBytes [0] ++ keccakBytes [0]) ∧
    treeRoot (addLeaf emptyTree [0]) ≠ keccakBytes ([0] ++ [0]) := by
  refine ⟨by decide, by decide, by decide⟩

/-- C2 (amended): starting from an empty store, after appending exactly one
leaf the tree root equals the single stored leaf hash `keccak(rawLeaf)`
itself — the last-leaf self-duplication of odd levels never applies to a
singleton level, because the reduction loop only runs while the level has
more than one node. -/
theorem claim_C2_amended (leaf : List Nat) :
    treeRoot (addLeaf emptyTree leaf) = keccakBytes leaf := rfl

/-- C9: `add_leaf(l)` appends `keccak(l)` — not `l` — to the stored leaf
sequence; `get_proof(l)` searches for `keccak(l)` (so an absent hash is a
`ValueError`, and a just-appended leaf is always found under the identical
key); `verify_proof(l, proof)` starts its running hash at `keccak(l)` (an
empty proof verifies exactly when `keccak(l)` is the root); and a store
grown only by `add_leaf` contains only hashed leaves. -/
theorem claim_C9_leaf_keying :
    (∀ (t : PersistentMerkleTree) (l : List Nat),
      (addLeaf t l).leaves = t.leaves ++ [keccakBytes l]) ∧
    (∀ (t : PersistentMerkleTree) (l : List Nat),
      keccakBytes l ∉ t.leaves → getProof t l = .error ("not in list".toList)) ∧
    (∀ (t : PersistentMerkleTree) (l : List Nat),
      ∃ p, getProof (addLeaf t l) l = .ok p) ∧
    (∀ (t : PersistentMerkleTree) (l : List Nat),
      verifyProof t l [] = (keccakBytes l == treeRoot t)) ∧
    (∀ (raws : List (List Nat)) (x : List Nat),
      x ∈ (treeOfRaws raws).leaves → ∃ raw ∈ raws, x = keccakBytes raw) := by
  refine ⟨fun t l => rfl, ?_, ?_, fun t l => rfl, ?_⟩
  · intro t l hmem
    have h : t.leaves.findIdx? (· == keccakBytes l) = none := by
      rw [List.findIdx?_eq_none_iff]
      intro x hx
      simp only [beq_eq_false_iff_ne, ne_eq]
      rintro rfl
      exact hmem hx
    simp [getProof, h]
  · intro t l
    rcases h : (addLeaf t l).leaves.findIdx? (· == keccakBytes l) with _ | i
    · rw [List.findIdx?_eq_none_iff] at h
      have hm : keccakBytes l ∈ (addLeaf t l).leaves := by simp [addLeaf]
      simpa using h _ hm
    · exact ⟨getProofLoop (addLeaf t l).leaves.length i (addLeaf t l).leaves [],
        by simp [getProof, h]⟩
  · intro raws x hx
    rcases mem_foldl_addLeaf raws emptyTree x hx with h | h
    · simp [emptyTree] at h
    · exact h

set_option maxRecDepth 40000 in
/-- Witness for `claim_C9_leaf_keying` at concrete inputs: proof lookup on
an empty store fails, lookup of a just-appended leaf succeeds, and the
singleton store's one stored entry is the keccak of the appended raw
leaf. -/
theorem claim_C9_witness :
    getProof emptyTree [0] = .error ("not in list".toList) ∧
    (∃ p, getProof (addLeaf emptyTree [0]) [0] = .ok p) ∧
    (∃ raw ∈ [[0]], keccakBytes [0] = keccakBytes raw) :=
  ⟨claim_C9_leaf_keying.2.1 emptyTree [0] (by simp [emptyTree]),
   claim_C9_leaf_keying.2.2.1 emptyTree [0],
   claim_C9_leaf_keying.2.2.2.2 [[0]] (keccakBytes [0]) (by decide)⟩


/-!
## Operation Codec — `src/userop.py`

Python's number formatting and parsing primitives (`hex`, `int(s, 16)`,
`int(s)`, `bytes.hex()`, `bytes.fromhex`) are modelled executably below.
Underscore digit separators and surrounding whitespace, which Python's
parsers additionally accept, are not modelled; no value produced by this
library contains them.
-/

/-- Lowercase digit characters `0-9a-f`, as produced by Python's `hex` and
`bytes.hex()`. -/
def lowDigitChar (n : Nat) : Char :=
  Char.ofNat (n + (if n < 10 then 48 else 87))

/-- Digit emission loop of Python's numeric formatting, most significant
digit first.  Structural recursion on a fuel counter (`fuel = n` more than
suffices) keeps it kernel-computable. -/
def natToDigitsAux (base : Nat) : Nat → Nat → List Char
  | 0, _ => []
  | fuel + 1, n =>
    if n = 0 then [] else natToDigitsAux base fuel (n / base) ++ [lowDigitChar (n % base)]

/-- Digits of `n` in `base`, lowercase, `"0"` for zero. -/
def natToDigits (base n : Nat) : List Char :=
  if n = 0 then ['0'] else natToDigitsAux base n n

/-- Python `hex(n)`: `0x`-prefixed lowercase hexadecimal, minimal digits,
with a leading `-` for negatives. -/
def pyHex (n : Int) : List Char :=
  if n < 0 then '-' :: '0' :: 'x' :: natToDigits 16 (-n).toNat
  else '0' :: 'x' :: natToDigits 16 n.toNat

/-- Value of one digit character as Python's parser sees it
(`0-9`, `a-z`, `A-Z`); acceptance additionally requires the value to be
below the base. -/
def charDigitVal (c : Char) : Option Nat :=
  let n := c.toNat
  if 48 ≤ n ∧ n ≤ 57 then some (n - 48)
  else if 97 ≤ n ∧ n ≤ 122 then some (n - 87)
  else if 65 ≤ n ∧ n ≤ 90 then some (n - 55)
  else none

/-- Left-to-right accumulation of digit values; `none` on the first
character that is not a digit below the base. -/
def parseDigitsAux (base : Nat) (acc : Nat) : List Char → Option Nat
  | [] => some acc
  | c :: cs =>
    match charDigitVal c with
    | some v => if v < base then parseDigitsAux base (acc * base + v) cs else none
    | none => none

/-- A nonempty all-digit string parsed in `base`; `none` otherwise. -/
def parseDigits (base : Nat) : List Char → Option Nat
  | [] => none
  | c :: cs => parseDigitsAux base 0 (c :: cs)

/-- Drop the optional `0x` / `0X` marker Python's `int(s, 16)` accepts. -/
def dropHexMarker : List Char → List Char
  | '0' :: 'x' :: rest => rest
  | '0' :: 'X' :: rest => rest
  | cs => cs

/-- Python `int(s, 16)`: optional sign, optional `0x` marker, at least one
hexadecimal digit. -/
def pyIntHex (s : List Char) : Option Int :=
  match s with
  | '-' :: rest => (parseDigits 16 (dropHexMarker rest)).map (fun n => -(n : Int))
  | '+' :: rest => (parseDigits 16 (dropHexMarker rest)).map (fun n => (n : Int))
  | rest => (parseDigits 16 (dropHexMarker rest)).map (fun n => (n : Int))

/-- Python `int(s)` (base 10): optional sign, at least one decimal digit; a
`0x`-prefixed string is a `ValueError` (`none`). -/
def pyIntDec (s : List Char) : Option Int :=
  match s with
  | '-' :: rest => (parseDigits 10 rest).map (fun n => -(n : Int))
  | '+' :: rest => (parseDigits 10 rest).map (fun n => (n : Int))
  | rest => (parseDigits 10 rest).map (fun n => (n : Int))

/-- Python `bytes.hex()`: two lowercase digits per byte. -/
def bytesToHex : List Nat → List Char
  | [] => []
  | v :: rest => lowDigitChar (v / 16) :: lowDigitChar (v % 16) :: bytesToHex rest

/-- Python `bytes.fromhex`: pairs of hexadecimal digits (either case); an
odd count or a non-hex character is a `ValueError` (`none`). -/
def hexToBytes : List Char → Option (List Nat)
  | [] => some []
  | c1 :: c2 :: rest =>
    match charDigitVal c1, charDigitVal c2 with
    | some hi, some lo =>
      if hi < 16 ∧ lo < 16 then (hexToBytes rest).map ((16 * hi + lo) :: ·) else none
    | _, _ => none
  | [_] => none

/-- Each digit character below 16 parses back to its value. -/
theorem charDigitVal_lowDigitChar :
    ∀ n, n < 16 → charDigitVal (lowDigitChar n) = some n := by decide

/-- `parseDigitsAux` consumes an appended list left to right. -/
theorem parseDigitsAux_append (base : Nat) (ds es : List Char) :
    ∀ acc, parseDigitsAux base acc (ds ++ es) =
      match parseDigitsAux base acc ds with
      | some m => parseDigitsAux base m es
      | none => none := by
  induction ds with
  | nil => intro acc; rfl
  | cons c cs ih =>
    intro acc
    simp only [List.cons_append, parseDigitsAux]
    rcases charDigitVal c with _ | v
    · rfl
    · by_cases hv : v < base
      · simp only [hv, if_true]
        exact ih _
      · simp [hv]

/-- The digit emitter and the digit parser are inverse: parsing the emitted
digits of `n` on top of any accumulator yields `acc * w + n` for a fixed
positive weight `w` (the base to the number of digits). -/
theorem parseDigitsAux_natToDigitsAux (base : Nat) (hb : 2 ≤ base) (hb16 : base ≤ 16) :
    ∀ fuel n, n ≤ fuel →
      ∃ w, 0 < w ∧ ∀ acc,
        parseDigitsAux base acc (natToDigitsAux base fuel n) = some (acc * w + n) := by
  intro fuel
  induction fuel with
  | zero =>
    intro n hn
    refine ⟨1, Nat.one_pos, fun acc => ?_⟩
    interval_cases n
    simp [natToDigitsAux, parseDigitsAux]
  | succ fuel ih =>
    intro n hn
    by_cases h0 : n = 0
    · subst h0
      exact ⟨1, Nat.one_pos, fun acc => by simp [natToDigitsAux, parseDigitsAux]⟩
    · have hdiv : n / base ≤ fuel := by
        have : n / base < n := Nat.div_lt_self (Nat.pos_of_ne_zero h0) (by omega)
        omega
      obtain ⟨w, hw, hparse⟩ := ih (n / base) hdiv
      refine ⟨w * base, by positivity, fun acc => ?_⟩
      have hmod : n % base < base := Nat.mod_lt _ (by omega)
      have hdigit : charDigitVal (lowDigitChar (n % base)) = some (n % base) :=
        charDigitVal_lowDigitChar _ (by omega)
      simp only [natToDigitsAux, h0, if_false]
      rw [parseDigitsAux_append, hparse]
      simp only [parseDigitsAux, hdigit, hmod, if_true]
      congr 1
      have hdm := Nat.div_add_mod n base
      calc (acc * w + n / base) * base + n % base
          = acc * (w * base) + (base * (n / base) + n % base) := by ring
        _ = acc * (w * base) + n := by rw [hdm]

/-- Formatting then parsing digits in a base between 2 and 16 is the
identity. -/
theorem parseDigits_natToDigits (base n : Nat) (hb : 2 ≤ base) (hb16 : base ≤ 16) :
    parseDigits base (natToDigits base n) = some n := by
  by_cases h0 : n = 0
  · subst h0
    have h : charDigitVal '0' = some 0 := by decide
    have hbpos : 0 < base := by omega
    simp [natToDigits, parseDigits, parseDigitsAux, h, hbpos]
  · obtain ⟨w, _, hparse⟩ :=
      parseDigitsAux_natToDigitsAux base hb hb16 n n (Nat.le_refl n)
    have hne : natToDigitsAux base n n ≠ [] := by
      rcases n with _ | m
      · exact absurd rfl h0
      · simp [natToDigitsAux, h0]
    rcases hd : natToDigitsAux base n n with _ | ⟨c, cs⟩
    · exact absurd hd hne
    · rw [natToDigits, if_neg h0, hd]
      have := hparse 0
      rw [hd] at this
      show parseDigitsAux base 0 (c :: cs) = some n
      simpa using this

/-- Python round trip `int(hex(n), 16) == n` for non-negative `n`. -/
theorem pyIntHex_pyHex (n : Int) (h : 0 ≤ n) : pyIntHex (pyHex n) = some n := by
  have hneg : ¬ n < 0 := by omega
  have hred : pyIntHex ('0' :: 'x' :: natToDigits 16 n.toNat) =
      (parseDigits 16 (natToDigits 16 n.toNat)).map (fun m => (m : Int)) := rfl
  rw [pyHex, if_neg hneg, hred,
    parseDigits_natToDigits 16 n.toNat (by omega) (by omega)]
  simp [Int.toNat_of_nonneg h]

/-- Python round trip `bytes.fromhex(b.hex()) == b`. -/
theorem hexToBytes_bytesToHex (b : List Nat) (h : ∀ v ∈ b, v < 256) :
    hexToBytes (bytesToHex b) = some b := by
  induction b with
  | nil => rfl
  | cons v rest ih =>
    have hv : v < 256 := h v (by simp)
    have hhi : v / 16 < 16 := by omega
    have hlo : v % 16 < 16 := Nat.mod_lt _ (by omega)
    simp only [bytesToHex, hexToBytes,
      charDigitVal_lowDigitChar _ hhi, charDigitVal_lowDigitChar _ hlo]
    rw [ih (fun x hx => h x (by simp [hx]))]
    have hv16 : 16 * (v / 16) + v % 16 = v := by omega
    simp [hhi, hlo, hv16]

/-- A hexadecimal digit character (either case), as accepted by the ABI
address validator. -/
def isHexDigitChar (c : Char) : Bool :=
  match charDigitVal c with
  | some v => v < 16
  | none => false

/-- `eth_abi.is_encodable("address", s)` (modelled from the external
`eth_abi` collaborator): a `0x`-prefixed string of exactly 40 hexadecimal
digits. -/
def isEncodableAddress : List Char → Bool
  | '0' :: 'x' :: rest => rest.length == 40 && rest.all isHexDigitChar
  | _ => false

/-- `eth_abi.is_encodable("uint256", n)`: a non-negative integer below
`2^256`. -/
def isEncodableUint256 (n : Int) : Bool :=
  decide (0 ≤ n) && decide (n < 2 ^ 256)

/-- The `UserOperation` data model (`src/userop.py`).  Any `bytes` value is
encodable as ABI `bytes`, so the constructor's per-field check constrains
only the `address` and `uint256` fields. -/
structure UserOperation where
  sender : List Char
  nonce : Int
  init_code : List Nat
  call_data : List Nat
  call_gas_limit : Int
  verification_gas_limit : Int
  pre_verification_gas : Int
  max_fee_per_gas : Int
  max_priority_fee_per_gas : Int
  paymaster_and_data : List Nat
  signature : List Nat
deriving DecidableEq, Repr

/-- The `UserOperation.__init__` encodability gate: fields are checked in
declaration order and the first non-encodable one raises `ValueError`
naming its ABI type (`bytes` fields are always encodable). -/
def mkUserOperation (sender : List Char) (nonce : Int) (init_code call_data : List Nat)
    (call_gas_limit verification_gas_limit pre_verification_gas : Int)
    (max_fee_per_gas max_priority_fee_per_gas : Int)
    (paymaster_and_data signature : List Nat) : Except (List Char) UserOperation :=
  if ¬ isEncodableAddress sender then .error ("not encodable as type address".toList)
  else if ¬ isEncodableUint256 nonce then .error ("not encodable as type uint256".toList)
  else if ¬ isEncodableUint256 call_gas_limit then
    .error ("not encodable as type uint256".toList)
  else if ¬ isEncodableUint256 verification_gas_limit then
    .error ("not encodable as type uint256".toList)
  else if ¬ isEncodableUint256 pre_verification_gas then
    .error ("not encodable as type uint256".toList)
  else if ¬ isEncodableUint256 max_fee_per_gas then
    .error ("not encodable as type uint256".toList)
  else if ¬ isEncodableUint256 max_priority_fee_per_gas then
    .error ("not encodable as type uint256".toList)
  else .ok
    { sender, nonce, init_code, call_data, call_gas_limit, verification_gas_limit,
      pre_verification_gas, max_fee_per_gas, max_priority_fee_per_gas,
      paymaster_and_data, signature }

/-- The wire dictionary produced by `marshal_userop`: fixed keys, all
string values. -/
structure MarshaledUserOp where
  sender : List Char
  nonce : List Char
  initCode : List Char
  callData : List Char
  callGasLimit : List Char
  verificationGasLimit : List Char
  preVerificationGas : List Char
  maxFeePerGas : List Char
  maxPriorityFeePerGas : List Char
  paymasterAndData : List Char
  signature : List Char
deriving DecidableEq, Repr

/-- `UserOperationLib.marshal_userop`: integers as `hex(n)`, byte strings as
`"0x" + b.hex()`, sender verbatim. -/
def marshalUserop (u : UserOperation) : MarshaledUserOp :=
  { sender := u.sender
    nonce := pyHex u.nonce
    initCode := '0' :: 'x' :: bytesToHex u.init_code
    callData := '0' :: 'x' :: bytesToHex u.call_data
    callGasLimit := pyHex u.call_gas_limit
    verificationGasLimit := pyHex u.verification_gas_limit
    preVerificationGas := pyHex u.pre_verification_gas
    maxFeePerGas := pyHex u.max_fee_per_gas
    maxPriorityFeePerGas := pyHex u.max_priority_fee_per_gas
    paymasterAndData := '0' :: 'x' :: bytesToHex u.paymaster_and_data
    signature := '0' :: 'x' :: bytesToHex u.signature }

/-- Lift an optional parse result into `Except`, as Python's `ValueError`
on a failed `int(..., 16)` or `bytes.fromhex`. -/
def req {α : Type} (o : Option α) (msg : List Char) : Except (List Char) α :=
  match o with
  | some a => .ok a
  | none => .error msg

/-- `UserOperationLib.unmarshal_userop`: parse every field
(`int(s, 16)` for integers, `bytes.fromhex(s[2:])` for byte strings) and
re-run the `UserOperation` constructor. -/
def unmarshalUserop (d : MarshaledUserOp) : Except (List Char) UserOperation :=
  (req (pyIntHex d.nonce) ("invalid literal".toList)).bind fun nonce =>
  (req (hexToBytes (d.initCode.drop 2)) ("non-hexadecimal number".toList)).bind fun init_code =>
  (req (hexToBytes (d.callData.drop 2)) ("non-hexadecimal number".toList)).bind fun call_data =>
  (req (pyIntHex d.callGasLimit) ("invalid literal".toList)).bind fun call_gas_limit =>
  (req (pyIntHex d.verificationGasLimit) ("invalid literal".toList)).bind fun verification_gas_limit =>
  (req (pyIntHex d.preVerificationGas) ("invalid literal".toList)).bind fun pre_verification_gas =>
  (req (pyIntHex d.maxFeePerGas) ("invalid literal".toList)).bind fun max_fee_per_gas =>
  (req (pyIntHex d.maxPriorityFeePerGas) ("invalid literal".toList)).bind fun max_priority_fee_per_gas =>
  (req (hexToBytes (d.paymasterAndData.drop 2)) ("non-hexadecimal number".toList)).bind fun paymaster_and_data =>
  (req (hexToBytes (d.signature.drop 2)) ("non-hexadecimal number".toList)).bind fun signature =>
  mkUserOperation d.sender nonce init_code call_data call_gas_limit
    verification_gas_limit pre_verification_gas max_fee_per_gas
    max_priority_fee_per_gas paymaster_and_data signature

/-- A `UserOperation` every field of which is encodable under its declared
ABI type — exactly the instances the `UserOperation` constructor admits
(`bytes` fields range over byte values `< 256` by the Python `bytes`
type). -/
def ValidUserOp (u : UserOperation) : Prop :=
  isEncodableAddress u.sender = true ∧
  isEncodableUint256 u.nonce = true ∧
  isEncodableUint256 u.call_gas_limit = true ∧
  isEncodableUint256 u.verification_gas_limit = true ∧
  isEncodableUint256 u.pre_verification_gas = true ∧
  isEncodableUint256 u.max_fee_per_gas = true ∧
  isEncodableUint256 u.max_priority_fee_per_gas = true ∧
  (∀ v ∈ u.init_code, v < 256) ∧
  (∀ v ∈ u.call_data, v < 256) ∧
  (∀ v ∈ u.paymaster_and_data, v < 256) ∧
  (∀ v ∈ u.signature, v < 256)

instance (u : UserOperation) : Decidable (ValidUserOp u) := by
  unfold ValidUserOp
  infer_instance

/-- C3: for every valid `UserOperation` (every field encodable under its
declared ABI type), `unmarshal_userop (marshal_userop op)` succeeds and
returns `op` field-for-field. -/
theorem claim_C3_marshal_roundtrip (u : UserOperation) (h : ValidUserOp u) :
    unmarshalUserop (marshalUserop u) = .ok u := by
  obtain ⟨haddr, hn, hcgl, hvgl, hpvg, hmf, hmp, hic, hcd, hpad, hsig⟩ := h
  have nonneg : ∀ m : Int, isEncodableUint256 m = true → 0 ≤ m := by
    intro m hm
    simp only [isEncodableUint256, Bool.and_eq_true, decide_eq_true_eq] at hm
    exact hm.1
  simp only [unmarshalUserop, marshalUserop, List.drop_succ_cons, List.drop_zero,
    pyIntHex_pyHex _ (nonneg _ hn), pyIntHex_pyHex _ (nonneg _ hcgl),
    pyIntHex_pyHex _ (nonneg _ hvgl), pyIntHex_pyHex _ (nonneg _ hpvg),
    pyIntHex_pyHex _ (nonneg _ hmf), pyIntHex_pyHex _ (nonneg _ hmp),
    hexToBytes_bytesToHex _ hic, hexToBytes_bytesToHex _ hcd,
    hexToBytes_bytesToHex _ hpad, hexToBytes_bytesToHex _ hsig, req, Except.bind]
  simp [mkUserOperation, haddr, hn, hcgl, hvgl, hpvg, hmf, hmp]

set_option maxRecDepth 10000 in
/-- Witness for `claim_C3_marshal_roundtrip` on a concrete operation. -/
theorem claim_C3_witness :
    (let u : UserOperation :=
      { sender := "0x00000000000000000000000000000000000000ab".toList
        nonce := 5
        init_code := [0xde, 0xad]
        call_data := [0xbe, 0xef, 0x00]
        call_gas_limit := 21000
        verification_gas_limit := 70000
        pre_verification_gas := 31000
        max_fee_per_gas := 1000000000
        max_priority_fee_per_gas := 2
        paymaster_and_data := []
        signature := [0x01, 0xff]
      }
     unmarshalUserop (marshalUserop u) = .ok u) :=
  claim_C3_marshal_roundtrip _ (by decide)

/-!
## ABI encoding (`eth_abi.encode`, modelled for the static types the
library encodes) and the pack / digest functions of `UserOperationLib`.

Every static ABI value occupies one 32-byte word; a tuple of static values
is the concatenation of its words.  `encode` raises on a value outside its
type's range.
-/

/-- One big-endian 32-byte ABI word for an unsigned value. -/
def abiWord (m : Nat) : List Nat :=
  (List.range 32).map (fun i => (m >>> (8 * (31 - i))) &&& 255)

/-- `eth_abi` encoding of an unsigned integer type of `bits` bits:
range-checked, one 32-byte big-endian word. -/
def abiEncodeUint (bits : Nat) (n : Int) : Except (List Char) (List Nat) :=
  if 0 ≤ n ∧ n < 2 ^ bits then .ok (abiWord n.toNat)
  else .error ("out of bounds".toList)

/-- `eth_abi` encoding of an `address`: a `0x`-prefixed 40-hex-digit
string becomes 12 zero bytes followed by its 20 decoded bytes. -/
def abiEncodeAddress (s : List Char) : Except (List Char) (List Nat) :=
  match s with
  | '0' :: 'x' :: rest =>
    match hexToBytes rest with
    | some b =>
      if b.length = 20 then .ok (List.replicate 12 0 ++ b)
      else .error ("not encodable as address".toList)
    | none => .error ("not encodable as address".toList)
  | _ => .error ("not encodable as address".toList)

/-- `eth_abi` encoding of `bytes32`: exactly 32 raw bytes, used verbatim. -/
def abiEncodeBytes32 (b : List Nat) : Except (List Char) (List Nat) :=
  if b.length = 32 then .ok b else .error ("not encodable as bytes32".toList)

/-- `UserOperationLib.pack`: ABI-encode the all-static tuple
`(address, uint256, bytes32, bytes32, uint256, uint256, uint256, uint256,
uint256, bytes32)` where the three variable-length byte fields enter only
through their keccak hashes. -/
def packUserop (u : UserOperation) : Except (List Char) (List Nat) :=
  (abiEncodeAddress u.sender).bind fun w0 =>
  (abiEncodeUint 256 u.nonce).bind fun w1 =>
  (abiEncodeBytes32 (keccakBytes u.init_code)).bind fun w2 =>
  (abiEncodeBytes32 (keccakBytes u.call_data)).bind fun w3 =>
  (abiEncodeUint 256 u.call_gas_limit).bind fun w4 =>
  (abiEncodeUint 256 u.verification_gas_limit).bind fun w5 =>
  (abiEncodeUint 256 u.pre_verification_gas).bind fun w6 =>
  (abiEncodeUint 256 u.max_fee_per_gas).bind fun w7 =>
  (abiEncodeUint 256 u.max_priority_fee_per_gas).bind fun w8 =>
  (abiEncodeBytes32 (keccakBytes u.paymaster_and_data)).bind fun w9 =>
  .ok (w0 ++ w1 ++ w2 ++ w3 ++ w4 ++ w5 ++ w6 ++ w7 ++ w8 ++ w9)

/-- `UserOperationLib.hash`: keccak of the ABI-encoded triple
`(keccak(pack(op)), entry_point_address, chain_id)`. -/
def hashUserop (u : UserOperation) (ep : List Char) (chainId : Int) :
    Except (List Char) (List Nat) :=
  (packUserop u).bind fun packed =>
  (abiEncodeBytes32 (keccakBytes packed)).bind fun w0 =>
  (abiEncodeAddress ep).bind fun w1 =>
  (abiEncodeUint 256 chainId).bind fun w2 =>
  .ok (keccakBytes (w0 ++ w1 ++ w2))

/-- An ABI word is 32 bytes. -/
theorem abiWord_length (m : Nat) : (abiWord m).length = 32 := by
  simp [abiWord]

/-- `isHexDigitChar` unpacked. -/
theorem isHexDigitChar_iff (c : Char) :
    isHexDigitChar c = true ↔ ∃ v, charDigitVal c = some v ∧ v < 16 := by
  rcases h : charDigitVal c with _ | v <;> simp [isHexDigitChar, h]

/-- A string of `2 * k` hexadecimal digit characters decodes to exactly
`k` bytes. -/
theorem hexToBytes_of_all_hex (k : Nat) :
    ∀ cs : List Char, (∀ c ∈ cs, isHexDigitChar c = true) → cs.length = 2 * k →
      ∃ b, hexToBytes cs = some b ∧ b.length = k := by
  induction k with
  | zero =>
    intro cs _ hlen
    have : cs = [] := List.eq_nil_of_length_eq_zero (by omega)
    exact ⟨[], by simp [this, hexToBytes]⟩
  | succ k ih =>
    intro cs hhex hlen
    match cs with
    | [] => simp at hlen
    | [c] => simp at hlen; omega
    | c1 :: c2 :: rest =>
      obtain ⟨v1, hv1, hv1lt⟩ := (isHexDigitChar_iff c1).mp (hhex c1 (by simp))
      obtain ⟨v2, hv2, hv2lt⟩ := (isHexDigitChar_iff c2).mp (hhex c2 (by simp))
      obtain ⟨b, hb, hblen⟩ := ih rest (fun c hc => hhex c (by simp [hc]))
        (by simp at hlen; omega)
      refine ⟨(16 * v1 + v2) :: b, ?_, by simp [hblen]⟩
      simp [hexToBytes, hv1, hv2, hv1lt, hv2lt, hb]

/-- An encodable address encodes to one 32-byte word. -/
theorem abiEncodeAddress_ok (s : List Char) (h : isEncodableAddress s = true) :
    ∃ w, abiEncodeAddress s = .ok w ∧ w.length = 32 := by
  unfold isEncodableAddress at h
  split at h
  next rest =>
    simp only [Bool.and_eq_true, beq_iff_eq, List.all_eq_true] at h
    obtain ⟨b, hb, hblen⟩ := hexToBytes_of_all_hex 20 rest (fun c hc => h.2 c hc)
      (by omega)
    exact ⟨List.replicate 12 0 ++ b,
      by simp [abiEncodeAddress, hb, hblen], by simp [hblen]⟩
  next => exact absurd h (by simp)

/-- An in-range `uint256` encodes to its big-endian word. -/
theorem abiEncodeUint256_ok (n : Int) (h : isEncodableUint256 n = true) :
    abiEncodeUint 256 n = .ok (abiWord n.toNat) := by
  simp only [isEncodableUint256, Bool.and_eq_true, decide_eq_true_eq] at h
  rw [abiEncodeUint, if_pos ⟨h.1, h.2⟩]

/-- A keccak digest always satisfies the `bytes32` length check. -/
theorem abiEncodeBytes32_keccak (b : List Nat) :
    abiEncodeBytes32 (keccakBytes b) = .ok (keccakBytes b) := by
  simp [abiEncodeBytes32, keccakBytes_length]

/-- C4: for every valid operation, entry-point address and chain id, the
authorization digest is `keccak(ABI-encode(keccak(pack(op)), ep, chainId))`
with `pack(op)` the ABI encoding of the ten-element static tuple whose
variable-length byte fields enter only as keccak hashes — hence the packed
form is exactly `320` bytes regardless of the lengths of `initCode`,
`callData` and `paymasterAndData`. -/
theorem claim_C4_pack_digest (u : UserOperation) (ep : List Char) (c : Int)
    (hu : ValidUserOp u) (hep : isEncodableAddress ep = true)
    (hc : isEncodableUint256 c = true) :
    ∃ packed epWord,
      packUserop u = .ok packed ∧
      packed.length = 320 ∧
      abiEncodeAddress ep = .ok epWord ∧
      hashUserop u ep c =
        .ok (keccakBytes (keccakBytes packed ++ epWord ++ abiWord c.toNat)) := by
  obtain ⟨haddr, hn, hcgl, hvgl, hpvg, hmf, hmp, _, _, _, _⟩ := hu
  obtain ⟨w0, hw0, hw0len⟩ := abiEncodeAddress_ok u.sender haddr
  obtain ⟨epWord, hepw, _⟩ := abiEncodeAddress_ok ep hep
  have hpack : packUserop u = .ok
      (w0 ++ abiWord u.nonce.toNat ++ keccakBytes u.init_code ++
       keccakBytes u.call_data ++ abiWord u.call_gas_limit.toNat ++
       abiWord u.verification_gas_limit.toNat ++
       abiWord u.pre_verification_gas.toNat ++
       abiWord u.max_fee_per_gas.toNat ++
       abiWord u.max_priority_fee_per_gas.toNat ++
       keccakBytes u.paymaster_and_data) := by
    simp [packUserop, hw0, abiEncodeUint256_ok _ hn, abiEncodeUint256_ok _ hcgl,
      abiEncodeUint256_ok _ hvgl, abiEncodeUint256_ok _ hpvg,
      abiEncodeUint256_ok _ hmf, abiEncodeUint256_ok _ hmp,
      abiEncodeBytes32_keccak, Except.bind]
  refine ⟨_, epWord, hpack, ?_, hepw, ?_⟩
  · simp [List.length_append, abiWord_length, keccakBytes_length, hw0len]
  · simp [hashUserop, hpack, Except.bind, abiEncodeBytes32_keccak, hepw,
      abiEncodeUint256_ok _ hc]

set_option maxRecDepth 10000 in
/-- Witness for `claim_C4_pack_digest` on a concrete operation, entry
point and chain id. -/
theorem claim_C4_witness :
    ∃ packed epWord,
      packUserop
        { sender := "0x00000000000000000000000000000000000000ab".toList
          nonce := 7, init_code := [0x01], call_data := [0x02, 0x03]
          call_gas_limit := 21000, verification_gas_limit := 70000
          pre_verification_gas := 31000, max_fee_per_gas := 12
          max_priority_fee_per_gas := 2, paymaster_and_data := []
          signature := [] } = .ok packed ∧
      packed.length = 320 ∧
      abiEncodeAddress "0x00000000000000000000000000000000000000cd".toList = .ok epWord ∧
      hashUserop
        { sender := "0x00000000000000000000000000000000000000ab".toList
          nonce := 7, init_code := [0x01], call_data := [0x02, 0x03]
          call_gas_limit := 21000, verification_gas_limit := 70000
          pre_verification_gas := 31000, max_fee_per_gas := 12
          max_priority_fee_per_gas := 2, paymaster_and_data := []
          signature := [] }
        "0x00000000000000000000000000000000000000cd".toList 137 =
        .ok (keccakBytes (keccakBytes packed ++ epWord ++ abiWord (Int.toNat 137))) :=
  claim_C4_pack_digest _ _ 137 (by decide) (by decide) (by decide)

/-- `UserOperationLib.gas_price`: the shared value when the two fee bounds
coincide, otherwise `min(maxFeePerGas, maxPriorityFeePerGas + baseFee)`. -/
def gasPrice (u : UserOperation) (block_base_fee : Int) : Int :=
  if u.max_fee_per_gas = u.max_priority_fee_per_gas then u.max_fee_per_gas
  else min u.max_fee_per_gas (u.max_priority_fee_per_gas + block_base_fee)

/-- C5: for every operation and non-negative base fee (including zero), the
gas price is `maxFeePerGas` when the two fee bounds are equal and
`min(maxFeePerGas, maxPriorityFeePerGas + baseFee)` otherwise, and it is
never negative (Python integers are unbounded, so no overflow exists to
model). -/
theorem claim_C5_gas_price (u : UserOperation) (baseFee : Int)
    (hbf : 0 ≤ baseFee) (hmf : 0 ≤ u.max_fee_per_gas)
    (hmp : 0 ≤ u.max_priority_fee_per_gas) :
    (u.max_fee_per_gas = u.max_priority_fee_per_gas →
      gasPrice u baseFee = u.max_fee_per_gas) ∧
    (u.max_fee_per_gas ≠ u.max_priority_fee_per_gas →
      gasPrice u baseFee = min u.max_fee_per_gas (u.max_priority_fee_per_gas + baseFee)) ∧
    0 ≤ gasPrice u baseFee := by
  refine ⟨fun h => by simp [gasPrice, h], fun h => by simp [gasPrice, h], ?_⟩
  by_cases h : u.max_fee_per_gas = u.max_priority_fee_per_gas
  · simpa [gasPrice, h] using hmp
  · simp only [gasPrice, h, if_false]
    omega

/-- Witness for `claim_C5_gas_price`: both branches on concrete fee
values. -/
theorem claim_C5_witness :
    (gasPrice
      { sender := [], nonce := 0, init_code := [], call_data := []
        call_gas_limit := 0, verification_gas_limit := 0
        pre_verification_gas := 0, max_fee_per_gas := 10
        max_priority_fee_per_gas := 3, paymaster_and_data := [], signature := [] }
      5 = min 10 (3 + 5)) ∧
    (gasPrice
      { sender := [], nonce := 0, init_code := [], call_data := []
        call_gas_limit := 0, verification_gas_limit := 0
        pre_verification_gas := 0, max_fee_per_gas := 4
        max_priority_fee_per_gas := 4, paymaster_and_data := [], signature := [] }
      0 = 4) :=
  ⟨(claim_C5_gas_price _ 5 (by decide) (by decide) (by decide)).2.1 (by decide),
   (claim_C5_gas_price _ 0 (by decide) (by decide) (by decide)).1 (by decide)⟩

/-!
## Relay / Sponsor numeric-field parsing — `src/bundler.py` and the
sponsor branch of `BiconomyV2SmartAccount.build_user_op`
(`src/smart_account.py`).

`Bundler.get_chain_id` parses its result with `int(result, 16)`;
`Bundler.get_gas_fee_values` and `Bundler.estimate_userop_gas` parse only
`maxPriorityFeePerGas` / `maxFeePerGas`, with plain base-10 `int(...)`,
leaving the three gas-limit strings untouched; `build_user_op` parses the
sponsor's three gas fields with plain base-10 `int(...)` and hex-decodes
`paymasterAndData`.
-/

/-- Python `str(n)` for integers: minimal decimal digits, `-` sign. -/
def pyStr (n : Int) : List Char :=
  if n < 0 then '-' :: natToDigits 10 (-n).toNat else natToDigits 10 n.toNat

/-- `Bundler.get_chain_id`: `int(result, 16)`. -/
def getChainId (result : List Char) : Except (List Char) Int :=
  req (pyIntHex result) ("invalid literal".toList)

/-- JSON result of the fee-value query (`biconomy_getGasFeeValues`): two
string fields. -/
structure GasFeeValuesResp where
  maxPriorityFeePerGas : List Char
  maxFeePerGas : List Char
deriving DecidableEq, Repr

/-- `Bundler.get_gas_fee_values`: both fee fields converted with plain
base-10 `int(...)`. -/
def getGasFeeValues (resp : GasFeeValuesResp) : Except (List Char) (Int × Int) :=
  (req (pyIntDec resp.maxPriorityFeePerGas) ("invalid literal".toList)).bind fun p =>
  (req (pyIntDec resp.maxFeePerGas) ("invalid literal".toList)).bind fun f =>
  .ok (p, f)

/-- JSON result of `eth_estimateUserOperationGas`: five string fields. -/
structure EstimateGasResp where
  callGasLimit : List Char
  verificationGasLimit : List Char
  preVerificationGas : List Char
  maxFeePerGas : List Char
  maxPriorityFeePerGas : List Char
deriving DecidableEq, Repr

/-- The dictionary `Bundler.estimate_userop_gas` returns: only the two fee
fields are converted (base-10 `int(...)`); the three gas-limit fields stay
the raw strings from the response. -/
structure EstimateGasOut where
  callGasLimit : List Char
  verificationGasLimit : List Char
  preVerificationGas : List Char
  maxFeePerGas : Int
  maxPriorityFeePerGas : Int
deriving DecidableEq, Repr

/-- `Bundler.estimate_userop_gas` (response handling). -/
def estimateUseropGas (resp : EstimateGasResp) : Except (List Char) EstimateGasOut :=
  (req (pyIntDec resp.maxPriorityFeePerGas) ("invalid literal".toList)).bind fun p =>
  (req (pyIntDec resp.maxFeePerGas) ("invalid literal".toList)).bind fun f =>
  .ok { callGasLimit := resp.callGasLimit
        verificationGasLimit := resp.verificationGasLimit
        preVerificationGas := resp.preVerificationGas
        maxFeePerGas := f, maxPriorityFeePerGas := p }

/-- JSON result of `pm_sponsorUserOperation`: four string fields. -/
structure SponsorResp where
  paymasterAndData : List Char
  preVerificationGas : List Char
  verificationGasLimit : List Char
  callGasLimit : List Char
deriving DecidableEq, Repr

/-- The sponsor branch of `build_user_op`:
`bytes.fromhex(paymasterAndData[2:])` and plain base-10 `int(...)` on the
three gas fields, in source order. -/
def sponsorFieldsOfResp (resp : SponsorResp) :
    Except (List Char) (List Nat × Int × Int × Int) :=
  (req (hexToBytes (resp.paymasterAndData.drop 2)) ("non-hexadecimal number".toList)).bind fun pad =>
  (req (pyIntDec resp.preVerificationGas) ("invalid literal".toList)).bind fun pvg =>
  (req (pyIntDec resp.verificationGasLimit) ("invalid literal".toList)).bind fun vgl =>
  (req (pyIntDec resp.callGasLimit) ("invalid literal".toList)).bind fun cgl =>
  .ok (pad, pvg, vgl, cgl)

/-- Every character the digit emitter produces (for a base up to 16) is one
of the sixteen lowercase digit characters. -/
theorem natToDigitsAux_mem (base : Nat) (hb : 0 < base) (hb16 : base ≤ 16) :
    ∀ fuel m c, c ∈ natToDigitsAux base fuel m → ∃ d, d < 16 ∧ c = lowDigitChar d := by
  intro fuel
  induction fuel with
  | zero => intro m c hc; simp [natToDigitsAux] at hc
  | succ fuel ih =>
    intro m c hc
    by_cases h0 : m = 0
    · simp [natToDigitsAux, h0] at hc
    · simp only [natToDigitsAux, h0, if_false, List.mem_append,
        List.mem_singleton] at hc
      rcases hc with hc | hc
      · exact ih _ _ hc
      · refine ⟨m % base, ?_, hc⟩
        have := Nat.mod_lt m hb
        omega

/-- No digit character is a sign character. -/
theorem lowDigitChar_ne_sign :
    ∀ d, d < 16 → lowDigitChar d ≠ '-' ∧ lowDigitChar d ≠ '+' := by decide

/-- On a string not starting with a sign, Python's base-10 `int` is digit
parsing. -/
theorem pyIntDec_of_not_sign (c : Char) (cs : List Char)
    (h1 : c ≠ '-') (h2 : c ≠ '+') :
    pyIntDec (c :: cs) = (parseDigits 10 (c :: cs)).map (fun n => (n : Int)) := by
  unfold pyIntDec
  split
  next heq => exact absurd (List.head_eq_of_cons_eq heq) h1
  next heq => exact absurd (List.head_eq_of_cons_eq heq) h2
  next => rfl

/-- Python round trip `int(str(n)) == n` for non-negative `n`. -/
theorem pyIntDec_pyStr (n : Int) (h : 0 ≤ n) : pyIntDec (pyStr n) = some n := by
  have hneg : ¬ n < 0 := by omega
  rw [pyStr, if_neg hneg]
  by_cases h0 : n.toNat = 0
  · have hn0 : n = 0 := by omega
    subst hn0
    decide
  · have hne : natToDigitsAux 10 n.toNat n.toNat ≠ [] := by
      rcases hm : n.toNat with _ | m
      · exact absurd hm h0
      · rw [← hm]
        simp [natToDigitsAux, hm, h0]
    rw [natToDigits, if_neg h0]
    rcases hd : natToDigitsAux 10 n.toNat n.toNat with _ | ⟨c, cs⟩
    · exact absurd hd hne
    · have hcmem : c ∈ natToDigitsAux 10 n.toNat n.toNat := by simp [hd]
      obtain ⟨d, hd16, hcd⟩ := natToDigitsAux_mem 10 (by omega) (by omega) _ _ _ hcmem
      obtain ⟨hs1, hs2⟩ := lowDigitChar_ne_sign d hd16
      rw [pyIntDec_of_not_sign c cs (hcd ▸ hs1) (hcd ▸ hs2)]
      have hparse : parseDigits 10 (natToDigits 10 n.toNat) = some n.toNat :=
        parseDigits_natToDigits 10 n.toNat (by omega) (by omega)
      rw [natToDigits, if_neg h0, hd] at hparse
      rw [hparse]
      simp [Int.toNat_of_nonneg h]

/-- C6 counterexample: the claim says the fee-value, gas-estimation and
sponsor gas fields are hex-parsed so that `"0x10"` yields `16`; in the code
these fields go through plain base-10 `int(...)`, which raises
`ValueError` on `"0x10"` instead of producing `16`. -/
theorem claim_C6_counterexample :
    getGasFeeValues ⟨"0x10".toList, "0x10".toList⟩ =
      .error ("invalid literal".toList) ∧
    estimateUseropGas ⟨"0x5208".toList, "0x11170".toList, "0x7918".toList,
      "0x10".toList, "0x10".toList⟩ = .error ("invalid literal".toList) ∧
    sponsorFieldsOfResp ⟨"0x".toList, "0x10".toList, "0x10".toList, "0x10".toList⟩ =
      .error ("invalid literal".toList) := by decide

/-- C6 (amended): only the chain-id query result is parsed as hexadecimal
(`int(result, 16)`, so `"0x10"` yields `16`); the fee-value query, the two
fee fields of the gas-estimation result, and the sponsor's three gas fields
are parsed with plain base-10 `int(...)` (so `"16"` yields `16` and a
`0x`-prefixed string raises); the gas-estimation result's three gas-limit
fields are not parsed at all and stay raw strings; the sponsor's
`paymasterAndData` is hex-decoded after stripping `0x`. -/
theorem claim_C6_amended :
    (∀ n : Int, 0 ≤ n → getChainId (pyHex n) = .ok n) ∧
    (∀ p f : Int, 0 ≤ p → 0 ≤ f →
      getGasFeeValues ⟨pyStr p, pyStr f⟩ = .ok (p, f)) ∧
    (∀ (resp : EstimateGasResp) (p f : Int), 0 ≤ p → 0 ≤ f →
      resp.maxPriorityFeePerGas = pyStr p → resp.maxFeePerGas = pyStr f →
      estimateUseropGas resp = .ok ⟨resp.callGasLimit, resp.verificationGasLimit,
        resp.preVerificationGas, f, p⟩) ∧
    (∀ (padBytes : List Nat) (pvg vgl cgl : Int), (∀ v ∈ padBytes, v < 256) →
      0 ≤ pvg → 0 ≤ vgl → 0 ≤ cgl →
      sponsorFieldsOfResp
        ⟨'0' :: 'x' :: bytesToHex padBytes, pyStr pvg, pyStr vgl, pyStr cgl⟩ =
        .ok (padBytes, pvg, vgl, cgl)) := by
  refine ⟨?_, ?_, ?_, ?_⟩
  · intro n hn
    simp [getChainId, req, pyIntHex_pyHex n hn]
  · intro p f hp hf
    simp [getGasFeeValues, req, pyIntDec_pyStr p hp, pyIntDec_pyStr f hf, Except.bind]
  · intro resp p f hp hf hrp hrf
    simp [estimateUseropGas, hrp, hrf, req,
      pyIntDec_pyStr p hp, pyIntDec_pyStr f hf, Except.bind]
  · intro padBytes pvg vgl cgl hpb hpvg hvgl hcgl
    simp [sponsorFieldsOfResp, req, hexToBytes_bytesToHex padBytes hpb,
      pyIntDec_pyStr pvg hpvg, pyIntDec_pyStr vgl hvgl, pyIntDec_pyStr cgl hcgl,
      Except.bind]

/-- Witness for `claim_C6_amended` at concrete inputs: `"0x10"` parses to
16 as chain id, decimal strings parse for the fee and sponsor fields. -/
theorem claim_C6_witness :
    getChainId (pyHex 16) = .ok 16 ∧
    getGasFeeValues ⟨pyStr 2, pyStr 18⟩ = .ok (2, 18) ∧
    sponsorFieldsOfResp ⟨'0' :: 'x' :: bytesToHex [0xab], pyStr 31000, pyStr 70000,
      pyStr 21000⟩ = .ok ([0xab], 31000, 70000, 21000) :=
  ⟨claim_C6_amended.1 16 (by decide),
   claim_C6_amended.2.1 2 18 (by decide) (by decide),
   claim_C6_amended.2.2.2 [0xab] 31000 70000 21000
     (by decide) (by decide) (by decide) (by decide)⟩

/-!
## Validation modules — `src/utils/modules.py`
(`SessionValidationModule.create_session_key_data`).

Python `**kwargs` is modelled as an association list from keyword name to a
dynamically typed value; `key not in kwargs` is an absent lookup.
-/

/-- One entry of `rules_list`: a dictionary with `offset`, `condition` and
`value`. -/
structure SessionRule where
  offset : Int
  condition : Int
  value : List Nat
deriving DecidableEq, Repr

/-- A dynamically typed Python value passed as a keyword argument. -/
inductive PyVal
  | str (s : List Char)
  | int (n : Int)
  | bytes (b : List Nat)
  | rules (l : List SessionRule)
deriving DecidableEq, Repr

/-- The session-capable validation-module variants. -/
inductive SessionValidationModule
  | ABI
  | ERC20
deriving DecidableEq, Repr

/-- The required keyword names each variant declares, in source order. -/
def requiredKeys : SessionValidationModule → List (List Char)
  | .ABI => ["session_key".toList, "permitted_contract".toList,
             "permitted_selector".toList, "permitted_value_limit".toList,
             "rules_list".toList]
  | .ERC20 => ["session_key".toList, "token".toList, "recipient".toList,
               "max_amount".toList]

/-- The `for key in required_keys: if key not in kwargs` loop: the first
required key absent from the kwargs, if any. -/
def firstMissingKey (req : List (List Char)) (kwargs : List (List Char × PyVal)) :
    Option (List Char) :=
  match req with
  | [] => none
  | k :: rest =>
    if (kwargs.lookup k).isSome then firstMissingKey rest kwargs else some k

/-- `kwargs[k]` once presence is established (a `KeyError` otherwise). -/
def getKw (kwargs : List (List Char × PyVal)) (k : List Char) :
    Except (List Char) PyVal :=
  match kwargs.lookup k with
  | some v => .ok v
  | none => .error ("KeyError".toList)

/-- `eth_abi` encoding of an `address` argument from a dynamic value. -/
def encAddressV : PyVal → Except (List Char) (List Nat)
  | .str s => abiEncodeAddress s
  | _ => .error ("not encodable as address".toList)

/-- `eth_abi` encoding of an unsigned-integer argument from a dynamic
value. -/
def encUintV (bits : Nat) : PyVal → Except (List Char) (List Nat)
  | .int n => abiEncodeUint bits n
  | _ => .error ("out of bounds".toList)

/-- `eth_abi` encoding of `bytes4`: exactly 4 raw bytes, right-padded to a
word. -/
def abiEncodeBytes4 (b : List Nat) : Except (List Char) (List Nat) :=
  if b.length = 4 then .ok (b ++ List.replicate 28 0)
  else .error ("not encodable as bytes4".toList)

/-- `eth_abi` encoding of a `bytes4` argument from a dynamic value. -/
def encBytes4V : PyVal → Except (List Char) (List Nat)
  | .bytes b => abiEncodeBytes4 b
  | _ => .error ("not encodable as bytes4".toList)

/-- One loop iteration of the ABI variant: `encode(["uint16", "uint8",
"bytes32"], [rule["offset"], rule["condition"], rule["value"]])`. -/
def encRule (r : SessionRule) : Except (List Char) (List Nat) :=
  (abiEncodeUint 16 r.offset).bind fun w0 =>
  (abiEncodeUint 8 r.condition).bind fun w1 =>
  (abiEncodeBytes32 r.value).bind fun w2 =>
  .ok (w0 ++ w1 ++ w2)

/-- The `for rule in rules_list` concatenation loop. -/
def encRules : List SessionRule → Except (List Char) (List Nat)
  | [] => .ok []
  | r :: rest =>
    (encRule r).bind fun e =>
    (encRules rest).bind fun es =>
    .ok (e ++ es)

/-- The value bound to `rules_list` must be a list of rule dictionaries. -/
def rulesOfV : PyVal → Except (List Char) (List SessionRule)
  | .rules l => .ok l
  | _ => .error ("not a rules list".toList)

/-- `SessionValidationModule.create_session_key_data`: check the variant's
required keyword names in order (`ValueError` naming the first absent
key), then ABI-encode the variant's payload. -/
def createSessionKeyData (m : SessionValidationModule)
    (kwargs : List (List Char × PyVal)) : Except (List Char) (List Nat) :=
  match m with
  | .ABI =>
    match firstMissingKey (requiredKeys .ABI) kwargs with
    | some k => .error ("Missing required parameter: ".toList ++ k)
    | none =>
      (getKw kwargs ("rules_list".toList)).bind fun vrl =>
      (rulesOfV vrl).bind fun rules =>
      (getKw kwargs ("session_key".toList)).bind fun vsk =>
      (encAddressV vsk).bind fun w0 =>
      (getKw kwargs ("permitted_contract".toList)).bind fun vpc =>
      (encAddressV vpc).bind fun w1 =>
      (getKw kwargs ("permitted_selector".toList)).bind fun vps =>
      (encBytes4V vps).bind fun w2 =>
      (getKw kwargs ("permitted_value_limit".toList)).bind fun vpvl =>
      (encUintV 128 vpvl).bind fun w3 =>
      (abiEncodeUint 16 (rules.length : Int)).bind fun w4 =>
      (encRules rules).bind fun tail =>
      .ok (w0 ++ w1 ++ w2 ++ w3 ++ w4 ++ tail)
  | .ERC20 =>
    match firstMissingKey (requiredKeys .ERC20) kwargs with
    | some k => .error ("Missing required parameter: ".toList ++ k)
    | none =>
      (getKw kwargs ("session_key".toList)).bind fun vsk =>
      (encAddressV vsk).bind fun w0 =>
      (getKw kwargs ("token".toList)).bind fun vt =>
      (encAddressV vt).bind fun w1 =>
      (getKw kwargs ("recipient".toList)).bind fun vr =>
      (encAddressV vr).bind fun w2 =>
      (getKw kwargs ("max_amount".toList)).bind fun vma =>
      (encUintV 256 vma).bind fun w3 =>
      .ok (w0 ++ w1 ++ w2 ++ w3)

/-- When exactly one required key is absent, the key-presence loop stops at
it. -/
theorem firstMissingKey_of_unique_absent (kwargs : List (List Char × PyVal))
    (k : List Char) :
    ∀ req : List (List Char), k ∈ req → kwargs.lookup k = none →
      (∀ k', k' ∈ req → k' ≠ k → (kwargs.lookup k').isSome = true) →
      firstMissingKey req kwargs = some k := by
  intro req
  induction req with
  | nil => intro h; simp at h
  | cons r rest ih =>
    intro hmem habs hothers
    by_cases hrk : r = k
    · subst hrk
      simp [firstMissingKey, habs]
    · have hr : (kwargs.lookup r).isSome = true := hothers r (by simp) hrk
      have hkrest : k ∈ rest := by
        rcases List.mem_cons.mp hmem with h | h
        · exact absurd h.symm hrk
        · exact h
      simp only [firstMissingKey, hr, if_true]
      exact ih hkrest habs (fun k' hk' hne => hothers k' (by simp [hk']) hne)

/-- C7: for each session-capable variant (ABI, ERC20), invoking session
key-data construction with exactly one required keyword absent raises a
`ValueError` naming that absent key. -/
theorem claim_C7_missing_param (m : SessionValidationModule)
    (kwargs : List (List Char × PyVal)) (k : List Char)
    (hreq : k ∈ requiredKeys m)
    (habsent : kwargs.lookup k = none)
    (hothers : ∀ k', k' ∈ requiredKeys m → k' ≠ k → (kwargs.lookup k').isSome = true) :
    createSessionKeyData m kwargs =
      .error ("Missing required parameter: ".toList ++ k) := by
  have hfirst := firstMissingKey_of_unique_absent kwargs k (requiredKeys m)
    hreq habsent hothers
  cases m <;> simp [createSessionKeyData, hfirst]

/-- Witness for `claim_C7_missing_param`: the ABI module invoked with every
required parameter except `rules_list` raises the error naming
`rules_list` (end-to-end scenario D). -/
theorem claim_C7_witness :
    createSessionKeyData .ABI
      [("session_key".toList, .str ("0x00000000000000000000000000000000000000ab".toList)),
       ("permitted_contract".toList, .str ("0x00000000000000000000000000000000000000cd".toList)),
       ("permitted_selector".toList, .bytes [1, 2, 3, 4]),
       ("permitted_value_limit".toList, .int 0)] =
      .error ("Missing required parameter: ".toList ++ "rules_list".toList) :=
  claim_C7_missing_param .ABI _ ("rules_list".toList)
    (by decide) (by decide) (by decide)

/-!
## Account Orchestrator — `src/smart_account.py`
(`send_eth`, `fund_account`, `build_user_op`, `sign_userop`).

Network collaborators (provider, bundler, paymaster) are modelled by an
environment record supplying their responses, and every outbound
collaborator call is recorded in a trace list, in call order.  Web3
contract-ABI helpers (`encode_abi`), the signing primitive
(`Account.signHash`) and the module address from the absent
`utils/constants.py` are environment-supplied pure functions.
-/

/-- One outbound collaborator invocation. -/
inductive CollabCall
  | getCode
  | getBalance
  | getNonce
  | estimateGas
  | sponsorUserop
  | sendUserop
  | getBlock
  | getTransactionCount
  | sendRawTransaction
deriving DecidableEq, Repr

/-- A gas field of a built operation: the sponsor branch stores parsed
integers, the bundler branch stores the raw response strings (Python's
dynamic typing permits both). -/
inductive PyIntOrStr
  | int (n : Int)
  | str (s : List Char)
deriving DecidableEq, Repr

/-- The operation as `build_user_op` leaves it. -/
structure BuiltUserOp where
  sender : List Char
  nonce : Int
  init_code : List Nat
  call_data : List Nat
  call_gas_limit : PyIntOrStr
  verification_gas_limit : PyIntOrStr
  pre_verification_gas : PyIntOrStr
  max_fee_per_gas : Int
  max_priority_fee_per_gas : Int
  paymaster_and_data : List Nat
  signature : List Nat
deriving DecidableEq, Repr

/-- The account's collaborators and configuration: collaborator responses,
locally derived state, and the pure external helpers. -/
structure AccountEnv where
  smart_account_address : List Char
  eoa_address : List Char
  entry_point : List Char
  chain_id : Int
  code_present : Bool
  sa_balance : Int
  eoa_balance : Int
  nonce : Int
  encode_execute : List Char → Int → List Nat
  estimate_resp : EstimateGasResp
  sponsor_resp : Option SponsorResp
  sign : List Nat → List Nat
  completeSig : List Nat → List Nat
  send_result : List Char
  base_fee_per_gas : Int
  transaction_count : Int
  raw_tx_hash : List Char

/-- `Web3.is_address`: a syntactically valid `0x`-prefixed 40-hex-digit
address string. -/
def isWeb3Address (s : List Char) : Bool :=
  isEncodableAddress s

/-- `BiconomyV2SmartAccount.build_user_op` with an explicit nonce (as both
`send_eth` and `deploy_smart_account` call it): construct the zeroed
operation (constructor encodability gate), request gas estimation, then
either take the sponsor's gas fields (parsed with base-10 `int`) or keep
the bundler's raw gas-limit strings, and clear the signature. -/
def buildUserOp (env : AccountEnv) (nonce : Int) (init_code call_data : List Nat) :
    Except (List Char) BuiltUserOp × List CollabCall :=
  match mkUserOperation env.smart_account_address nonce init_code call_data
      0 0 0 0 0 [] [] with
  | .error e => (.error e, [])
  | .ok _ =>
    match estimateUseropGas env.estimate_resp with
    | .error e => (.error e, [.estimateGas])
    | .ok est =>
      match env.sponsor_resp with
      | some sresp =>
        match sponsorFieldsOfResp sresp with
        | .error e => (.error e, [.estimateGas, .sponsorUserop])
        | .ok (padBytes, pvg, vgl, cgl) =>
          (.ok { sender := env.smart_account_address, nonce, init_code, call_data
                 call_gas_limit := .int cgl
                 verification_gas_limit := .int vgl
                 pre_verification_gas := .int pvg
                 max_fee_per_gas := est.maxFeePerGas
                 max_priority_fee_per_gas := est.maxPriorityFeePerGas
                 paymaster_and_data := padBytes
                 signature := [] },
           [.estimateGas, .sponsorUserop])
      | none =>
        (.ok { sender := env.smart_account_address, nonce, init_code, call_data
               call_gas_limit := .str est.callGasLimit
               verification_gas_limit := .str est.verificationGasLimit
               pre_verification_gas := .str est.preVerificationGas
               max_fee_per_gas := est.maxFeePerGas
               max_priority_fee_per_gas := est.maxPriorityFeePerGas
               paymaster_and_data := []
               signature := [] },
         [.estimateGas])

/-- ABI encoding of a built operation's gas field (`eth_abi` raises on a
string where `uint256` is declared). -/
def encGasV : PyIntOrStr → Except (List Char) (List Nat)
  | .int n => abiEncodeUint 256 n
  | .str _ => .error ("out of bounds".toList)

/-- `UserOperationLib.pack` applied to a built operation. -/
def packBuilt (u : BuiltUserOp) : Except (List Char) (List Nat) :=
  (abiEncodeAddress u.sender).bind fun w0 =>
  (abiEncodeUint 256 u.nonce).bind fun w1 =>
  (abiEncodeBytes32 (keccakBytes u.init_code)).bind fun w2 =>
  (abiEncodeBytes32 (keccakBytes u.call_data)).bind fun w3 =>
  (encGasV u.call_gas_limit).bind fun w4 =>
  (encGasV u.verification_gas_limit).bind fun w5 =>
  (encGasV u.pre_verification_gas).bind fun w6 =>
  (abiEncodeUint 256 u.max_fee_per_gas).bind fun w7 =>
  (abiEncodeUint 256 u.max_priority_fee_per_gas).bind fun w8 =>
  (abiEncodeBytes32 (keccakBytes u.paymaster_and_data)).bind fun w9 =>
  .ok (w0 ++ w1 ++ w2 ++ w3 ++ w4 ++ w5 ++ w6 ++ w7 ++ w8 ++ w9)

/-- `UserOperationLib.hash` applied to a built operation. -/
def hashBuilt (u : BuiltUserOp) (ep : List Char) (chainId : Int) :
    Except (List Char) (List Nat) :=
  (packBuilt u).bind fun packed =>
  (abiEncodeBytes32 (keccakBytes packed)).bind fun w0 =>
  (abiEncodeAddress ep).bind fun w1 =>
  (abiEncodeUint 256 chainId).bind fun w2 =>
  .ok (keccakBytes (w0 ++ w1 ++ w2))

/-- `BiconomyV2SmartAccount.sign_userop`: compute the digest over entry
point and chain id, sign it, and re-wrap the signature with the module
address (all signing and wrapping primitives environment-supplied). -/
def signUserop (env : AccountEnv) (u : BuiltUserOp) :
    Except (List Char) BuiltUserOp :=
  (hashBuilt u env.entry_point env.chain_id).bind fun h =>
  .ok { u with signature := env.completeSig (env.sign h) }

/-- The remainder of `send_eth` after its guard block: encode the
`execute` call data, fetch the nonce (after the nonce-key guard), build,
sign, and submit the operation. -/
def sendEthBody (env : AccountEnv) (recipient : List Char) (amount_wei : Int)
    (nonce_key : Int) : Except (List Char) (List Char) × List CollabCall :=
  let call_data := env.encode_execute recipient amount_wei
  if nonce_key < 0 then (.error ("Key must be a positive integer".toList), [])
  else
    match buildUserOp env env.nonce [] call_data with
    | (.error e, calls) => (.error e, .getNonce :: calls)
    | (.ok u, calls) =>
      match signUserop env u with
      | .error e => (.error e, .getNonce :: calls)
      | .ok _ => (.ok env.send_result, .getNonce :: calls ++ [.sendUserop])

/-- `BiconomyV2SmartAccount.send_eth`: the four guards in source order
(amount positivity, recipient syntax, deployment, balance), then the
build-sign-submit pipeline. -/
def sendEth (env : AccountEnv) (recipient : List Char) (amount_wei : Int)
    (nonce_key : Int) : Except (List Char) (List Char) × List CollabCall :=
  if amount_wei ≤ 0 then
    (.error ("Amount must be a positive integer".toList), [])
  else if ¬ isWeb3Address recipient then
    (.error ("Recipient must be a valid ethereum address".toList), [])
  else if ¬ env.code_present then
    (.error ("Account isn't deployed".toList), [.getCode])
  else if amount_wei > env.sa_balance then
    (.error ("Amount is greater than account balance".toList), [.getCode, .getBalance])
  else
    let (res, calls) := sendEthBody env recipient amount_wei nonce_key
    (res, [.getCode, .getBalance] ++ calls)

/-- `BiconomyV2SmartAccount.fund_account`: amount positivity, then the EOA
balance guard (strict: `amount_wei >= eoa_balance` is rejected), then
fee lookup, nonce lookup, local signing and raw-transaction submission. -/
def fundAccount (env : AccountEnv) (amount_wei : Int) (_gas : Int) :
    Except (List Char) (List Char) × List CollabCall :=
  if amount_wei ≤ 0 then
    (.error ("Amount must be a positive integer".toList), [])
  else if amount_wei ≥ env.eoa_balance then
    (.error ("Amount is greater than account balance".toList), [.getBalance])
  else
    (.ok env.raw_tx_hash,
     [.getBalance, .getBlock, .getTransactionCount, .sendRawTransaction])

/-- C8: for every transfer amount that is not strictly positive, `send_eth`
raises the `ValueError` immediately, with zero collaborator invocations —
the amount check is the first, synchronous guard and nothing is retried. -/
theorem claim_C8_amount_guard (env : AccountEnv) (recipient : List Char)
    (amount_wei nonce_key : Int) (h : amount_wei ≤ 0) :
    sendEth env recipient amount_wei nonce_key =
      (.error ("Amount must be a positive integer".toList), []) := by
  simp [sendEth, h]

/-- A throwaway environment for exercising the guards at concrete
inputs. -/
def sampleEnv : AccountEnv :=
  { smart_account_address := "0x00000000000000000000000000000000000000ab".toList
    eoa_address := "0x00000000000000000000000000000000000000cd".toList
    entry_point := "0x00000000000000000000000000000000000000ef".toList
    chain_id := 137
    code_present := true
    sa_balance := 5
    eoa_balance := 7
    nonce := 0
    encode_execute := fun _ _ => []
    estimate_resp := ⟨"1".toList, "1".toList, "1".toList, "1".toList, "1".toList⟩
    sponsor_resp := none
    sign := fun _ => []
    completeSig := fun _ => []
    send_result := "0xhash".toList
    base_fee_per_gas := 3
    transaction_count := 0
    raw_tx_hash := "0xtx".toList }

/-- Witness for `claim_C8_amount_guard`: a zero amount is rejected with an
empty collaborator trace. -/
theorem claim_C8_witness :
    sendEth sampleEnv ("0x00000000000000000000000000000000000000cd".toList) 0 0 =
      (.error ("Amount must be a positive integer".toList), []) :=
  claim_C8_amount_guard sampleEnv _ 0 0 (by decide)

/-- C10: `fund_account` rejects funding with exactly the full EOA balance
(its guard uses `>=`, demanding strict inequality), while `send_eth`'s
balance guard uses `>` and therefore lets a transfer of exactly the full
smart-account balance proceed into the build-sign-submit pipeline. -/
theorem claim_C10_balance_asymmetry (env : AccountEnv) (recipient : List Char)
    (nonce_key gas : Int)
    (hrec : isWeb3Address recipient = true) (hdep : env.code_present = true)
    (hsa : 0 < env.sa_balance) (heoa : 0 < env.eoa_balance) :
    fundAccount env env.eoa_balance gas =
      (.error ("Amount is greater than account balance".toList), [.getBalance]) ∧
    sendEth env recipient env.sa_balance nonce_key =
      (let (res, calls) := sendEthBody env recipient env.sa_balance nonce_key
       (res, [.getCode, .getBalance] ++ calls)) := by
  constructor
  · have h1 : ¬ env.eoa_balance ≤ 0 := by omega
    simp [fundAccount, h1]
  · have h1 : ¬ env.sa_balance ≤ 0 := by omega
    have h2 : ¬ env.sa_balance > env.sa_balance := by omega
    simp [sendEth, h1, hrec, hdep, h2]

set_option maxRecDepth 10000 in
/-- Witness for `claim_C10_balance_asymmetry` on the sample environment:
funding the exact EOA balance fails, sending the exact smart-account
balance passes the guard block. -/
theorem claim_C10_witness :
    fundAccount sampleEnv sampleEnv.eoa_balance 50000 =
      (.error ("Amount is greater than account balance".toList), [.getBalance]) ∧
    sendEth sampleEnv ("0x00000000000000000000000000000000000000cd".toList)
        sampleEnv.sa_balance 0 =
      (let (res, calls) := sendEthBody sampleEnv
          ("0x00000000000000000000000000000000000000cd".toList) sampleEnv.sa_balance 0
       (res, [.getCode, .getBalance] ++ calls)) :=
  claim_C10_balance_asymmetry sampleEnv _ 0 50000
    (by decide) (by decide) (by decide) (by decide)
